import Mathlib

/-!
Verification development for the strategy execution engine of a Binance
futures trading bot (files `src/advanced/twap.py` and
`src/advanced/grid_strategy.py`).

Python floats are modelled as rationals (`ℚ`), Python ints as `ℤ`,
timestamps (`datetime.now()`) as opaque natural-number ticks supplied by the
environment, and exceptions as `Except PyErr`.  Exception message strings
(f-strings in the source) are elided: only the kind of the exception is
kept.  Gateway behaviour (prices returned by `futures_symbol_ticker`,
order ids and success/failure of `futures_create_order` /
`futures_cancel_order`) enters the model as parameters of the events that
drive the state machines.
-/


/-- Kinds of Python exception raised by the modelled code: `ValueError`
raised explicitly by validation / lookup code, and `ZeroDivisionError`
raised by `/` on a zero denominator. -/
inductive PyErr where
  | valueError
  | zeroDivisionError
  deriving Repr, DecidableEq

/-- Python float division: raises `ZeroDivisionError` on a zero
denominator, otherwise behaves as exact division (floats are modelled as
rationals). -/
def pydiv (a b : ℚ) : Except PyErr ℚ :=
  if b = 0 then .error .zeroDivisionError else .ok (a / b)

/-- Round a rational to the nearest integer, ties to even — the rounding
used by Python's builtin `round`. -/
def roundHalfEven (q : ℚ) : ℤ :=
  if Int.fract q < 1 / 2 then ⌊q⌋
  else if 1 / 2 < Int.fract q then ⌊q⌋ + 1
  else if ⌊q⌋ % 2 = 0 then ⌊q⌋ else ⌊q⌋ + 1

/-- Python's `round(x, 2)`: round to two decimal places, ties to even. -/
def round2 (q : ℚ) : ℚ := (roundHalfEven (q * 100) : ℚ) / 100

/-- Status values a TWAP strategy record can carry. -/
inductive TwapStatus where
  | running
  | completed
  | stopped
  | error
  deriving Repr, DecidableEq

/-- One entry of `strategy['executed_orders']`: a recorded fill. -/
structure TwapFill where
  slice_num : ℤ
  order_id : ℕ
  quantity : ℚ
  price : ℚ
  timestamp : ℕ
  deriving Repr, DecidableEq

/-- The TWAP strategy record created by `execute_twap_order` and mutated by
the slice scheduler thread and the stop operation. -/
structure TwapState where
  symbol : String
  side : String
  total_quantity : ℚ
  remaining_quantity : ℚ
  duration_minutes : ℤ
  num_slices : ℤ
  slice_quantity : ℚ
  slice_interval : ℚ
  start_time : ℕ
  status : TwapStatus
  executed_orders : List TwapFill
  total_executed : ℚ
  average_price : ℚ
  end_time : Option ℕ := none
  error : Option String := none
  deriving Repr, DecidableEq

/-- Sum of the quantities of a list of fills. -/
def sumQ (fs : List TwapFill) : ℚ := (fs.map (fun f => f.quantity)).sum

/-- Sum of quantity·price over a list of fills — the `total_value` computed
in `_execute_slice`. -/
def sumQP (fs : List TwapFill) : ℚ := (fs.map (fun f => f.quantity * f.price)).sum

/-- Validation and record creation of `TWAPStrategy.execute_twap_order`
(the registry insertion and thread launch are modelled by the reachability
relation below; the start timestamp is the parameter `t`). -/
def execute_twap_order (symbol side : String) (total_quantity : ℚ)
    (duration_minutes num_slices : ℤ) (t : ℕ) : Except PyErr TwapState :=
  if ¬ (side = "BUY" ∨ side = "SELL") then .error .valueError
  else if total_quantity ≤ 0 then .error .valueError
  else if duration_minutes ≤ 0 then .error .valueError
  else if num_slices ≤ 0 then .error .valueError
  else
    match pydiv total_quantity (num_slices : ℚ),
          pydiv ((duration_minutes * 60 : ℤ) : ℚ) (num_slices : ℚ) with
    | .ok sq, .ok si =>
        .ok { symbol := symbol
              side := side
              total_quantity := total_quantity
              remaining_quantity := total_quantity
              duration_minutes := duration_minutes
              num_slices := num_slices
              slice_quantity := sq
              slice_interval := si
              start_time := t
              status := .running
              executed_orders := []
              total_executed := 0
              average_price := 0 }
    | .error e, _ => .error e
    | _, .error e => .error e

/-- Body of `TWAPStrategy._execute_slice` for slice number `slice_num`.
`price` is the ticker price, `oid` the order id returned by the gateway,
`ok` whether the ticker fetch and order placement succeeded (`ok = false`
is the `except` branch, with exception text `msg`), `t` the fill
timestamp. -/
def execute_slice (s : TwapState) (slice_num : ℤ) (price : ℚ) (oid t : ℕ)
    (ok : Bool) (msg : String) : TwapState :=
  if s.remaining_quantity ≤ 0 then s
  else if ok then
    let q := min s.slice_quantity s.remaining_quantity
    let fills := s.executed_orders ++
      [{ slice_num := slice_num, order_id := oid, quantity := q,
         price := price, timestamp := t }]
    let executed := s.total_executed + q
    { s with executed_orders := fills
             remaining_quantity := s.remaining_quantity - q
             total_executed := executed
             average_price :=
               if executed > 0 then sumQP fills / executed else 0 }
  else
    { s with status := .error, error := some msg }

/-- Record-level effect of `TWAPStrategy.stop_twap_strategy` on the found
strategy: set status STOPPED and stamp the end time. -/
def stop_twap_record (s : TwapState) (t : ℕ) : TwapState :=
  { s with status := .stopped, end_time := some t }

/-- Events that can hit a running TWAP strategy: one loop iteration of
`_execute_twap_slices` executing a slice, the completion check after the
loop, an external stop request, and a crash of the scheduler thread (the
outer `except` of `_execute_twap_slices`). -/
inductive TwapEvent where
  | slice (price : ℚ) (oid t : ℕ) (ok : Bool) (msg : String)
  | finish (t : ℕ)
  | stop (t : ℕ)
  | crash (msg : String)

/-- One step of the TWAP system: the record together with the scheduler's
loop index (`slice_num` runs over `range(num_slices)`, so a slice executes
only while the index is below `num_slices` and the status check at the top
of the loop has seen RUNNING). -/
def twapSysStep (p : TwapState × ℕ) (e : TwapEvent) : TwapState × ℕ :=
  match e with
  | .slice price oid t ok msg =>
      if (p.2 : ℤ) < p.1.num_slices ∧ p.1.status = .running then
        (execute_slice p.1 ((p.2 : ℤ) + 1) price oid t ok msg, p.2 + 1)
      else p
  | .finish t =>
      if p.1.status = .running ∧ ¬ (p.2 : ℤ) < p.1.num_slices then
        ({ p.1 with status := .completed, end_time := some t }, p.2)
      else p
  | .stop t => (stop_twap_record p.1 t, p.2)
  | .crash msg => ({ p.1 with status := .error, error := some msg }, p.2)

/-- States of a TWAP strategy (record plus scheduler loop index) reachable
after the strategy starts from the record `init`. -/
inductive TwapReach (init : TwapState) : TwapState × ℕ → Prop where
  | init : TwapReach init (init, 0)
  | step {p : TwapState × ℕ} (e : TwapEvent) :
      TwapReach init p → TwapReach init (twapSysStep p e)

/-- Status values a grid strategy record can carry. -/
inductive GridStatus where
  | active
  | stopped
  | error
  deriving Repr, DecidableEq

/-- Status values of one grid level. -/
inductive LevelStatus where
  | pending
  | executed
  | cancelled
  | error
  deriving Repr, DecidableEq

/-- One entry of `grid_strategy['grid_levels']`. -/
structure GridLevel where
  level : ℤ
  price : ℚ
  quantity : ℚ
  status : LevelStatus
  order_id : Option ℕ
  executed_time : Option ℕ := none
  error : Option String := none
  deriving Repr, DecidableEq

/-- The grid strategy record created by `create_grid_strategy` and mutated
by the monitor thread and the stop operation. -/
structure GridState where
  symbol : String
  grid_type : String
  upper_price : ℚ
  lower_price : ℚ
  grid_count : ℤ
  price_step : ℚ
  order_quantity : ℚ
  grid_levels : List GridLevel
  status : GridStatus
  created_time : ℕ
  total_orders : ℤ
  executed_orders : ℤ
  stopped_time : Option ℕ := none
  error : Option String := none
  deriving Repr, DecidableEq

/-- The trigger predicate `GridStrategy._should_trigger_order`.  Any
`grid_type` other than BUY and SELL takes the final (BOTH) branch, exactly
as the `else` of the source does; `0.001` is the literal 1/1000. -/
def should_trigger_order (current_price level_price : ℚ) (grid_type : String) : Bool :=
  if grid_type = "BUY" then decide (current_price ≤ level_price)
  else if grid_type = "SELL" then decide (current_price ≥ level_price)
  else decide (|current_price - level_price| < level_price * (1 / 1000))

/-- Validation, level computation and record creation of
`GridStrategy.create_grid_strategy` (the registry insertion and monitor
thread launch are modelled by the reachability relation below; the
creation timestamp is the parameter `t`). -/
def create_grid_strategy (symbol grid_type : String) (upper_price lower_price : ℚ)
    (grid_count : ℤ) (order_quantity : ℚ) (t : ℕ) : Except PyErr GridState :=
  if ¬ (grid_type = "BUY" ∨ grid_type = "SELL" ∨ grid_type = "BOTH") then
    .error .valueError
  else if upper_price ≤ lower_price then .error .valueError
  else if grid_count ≤ 0 then .error .valueError
  else if order_quantity ≤ 0 then .error .valueError
  else
    match pydiv (upper_price - lower_price) ((grid_count - 1 : ℤ) : ℚ) with
    | .error e => .error e
    | .ok price_step =>
        .ok { symbol := symbol
              grid_type := grid_type
              upper_price := upper_price
              lower_price := lower_price
              grid_count := grid_count
              price_step := price_step
              order_quantity := order_quantity
              grid_levels := (List.range grid_count.toNat).map (fun (i : ℕ) =>
                { level := (i : ℤ) + 1
                  price := round2 (lower_price + (i : ℚ) * price_step)
                  quantity := order_quantity
                  status := .pending
                  order_id := none })
              status := .active
              created_time := t
              total_orders := 0
              executed_orders := 0 }

/-- Effect of one monitor pass on a single level: if the level is PENDING
and the trigger predicate fires, `_execute_grid_order` runs for it —
marking it EXECUTED with the gateway's order id on success, or ERROR with
the exception text on failure.  Other levels are untouched. -/
def poll_level (grid_type : String) (price : ℚ) (ok : ℤ → Bool) (oid : ℤ → ℕ)
    (t : ℕ) (msg : String) (l : GridLevel) : GridLevel :=
  if l.status = .pending ∧ should_trigger_order price l.price grid_type = true then
    if ok l.level then
      { l with status := .executed, order_id := some (oid l.level),
               executed_time := some t }
    else
      { l with status := .error, error := some msg }
  else l

/-- All levels after one monitor pass (`_monitor_grid_strategy` checks each
level independently; a level's treatment does not depend on the others). -/
def poll_levels (grid_type : String) (price : ℚ) (ok : ℤ → Bool) (oid : ℤ → ℕ)
    (t : ℕ) (msg : String) (ls : List GridLevel) : List GridLevel :=
  ls.map (poll_level grid_type price ok oid t msg)

/-- Number of orders successfully placed in one monitor pass: the levels
for which `_execute_grid_order` ran and succeeded.  `total_orders` and
`executed_orders` are each incremented once per such level. -/
def poll_exec_count (grid_type : String) (price : ℚ) (ok : ℤ → Bool)
    (ls : List GridLevel) : ℕ :=
  ls.countP (fun l =>
    decide (l.status = .pending ∧
      should_trigger_order price l.price grid_type = true ∧ ok l.level = true))

/-- Cancellation sweep of `stop_grid_strategy`: every level still PENDING
that has an order id recorded is cancelled through the gateway; on success
it becomes CANCELLED, a cancellation failure is logged and leaves the
level unchanged.  `cok` tells whether the gateway cancel succeeded for a
given order id. -/
def cancel_level (cok : ℕ → Bool) (l : GridLevel) : GridLevel :=
  match l.order_id with
  | some oid =>
      if l.status = .pending then
        if cok oid then { l with status := .cancelled } else l
      else l
  | none => l

/-- All levels after the cancellation sweep of `stop_grid_strategy`. -/
def cancel_levels (cok : ℕ → Bool) (ls : List GridLevel) : List GridLevel :=
  ls.map (cancel_level cok)

/-- Record-level effect of `GridStrategy.stop_grid_strategy` on the found
grid: set status STOPPED, stamp the stop time, run the cancellation
sweep. -/
def stop_grid_record (g : GridState) (t : ℕ) (cok : ℕ → Bool) : GridState :=
  { g with status := .stopped
           stopped_time := some t
           grid_levels := cancel_levels cok g.grid_levels }

/-- The order ids `stop_grid_strategy` would try to cancel: those of
levels still PENDING with an order id recorded. -/
def pending_cancel_orders (ls : List GridLevel) : List ℕ :=
  ls.filterMap (fun l =>
    if l.status = .pending ∧ l.order_id.isSome then l.order_id else none)

/-- Events that can hit a grid strategy: one polling pass of the monitor
loop (with the gateway's price and per-level order outcomes), an external
stop request (with per-order cancel outcomes), and a crash of the monitor
thread (the outer `except` of `_monitor_grid_strategy`). -/
inductive GridEvent where
  | poll (price : ℚ) (ok : ℤ → Bool) (oid : ℤ → ℕ) (t : ℕ) (msg : String)
  | stop (t : ℕ) (cok : ℕ → Bool)
  | crash (msg : String)

/-- One step of the grid system.  A polling pass only happens while the
monitor loop's condition `status == ACTIVE` holds. -/
def gridStep (g : GridState) (e : GridEvent) : GridState :=
  match e with
  | .poll price ok oid t msg =>
      if g.status = .active then
        { g with grid_levels :=
                   poll_levels g.grid_type price ok oid t msg g.grid_levels
                 total_orders := g.total_orders +
                   (poll_exec_count g.grid_type price ok g.grid_levels : ℤ)
                 executed_orders := g.executed_orders +
                   (poll_exec_count g.grid_type price ok g.grid_levels : ℤ) }
      else g
  | .stop t cok => stop_grid_record g t cok
  | .crash msg => { g with status := .error, error := some msg }

/-- Iterated grid steps over a list of events. -/
def gridSteps (g : GridState) (es : List GridEvent) : GridState :=
  es.foldl gridStep g

/-- Grid states reachable after the strategy is created as `init`. -/
inductive GridReach (init : GridState) : GridState → Prop where
  | init : GridReach init init
  | step {g : GridState} (e : GridEvent) :
      GridReach init g → GridReach init (gridStep g e)

/-- Lookup in the `active_strategies` / `active_grids` dict, modelled as an
association list. -/
def lookupReg {α : Type} (m : List (String × α)) (k : String) : Option α :=
  match m with
  | [] => none
  | (k1, v) :: rest => if k1 = k then some v else lookupReg rest k

/-- In-place update of the record stored under a key (Python dict entries
are mutated in place; keys are never added or removed by a stop). -/
def setReg {α : Type} (m : List (String × α)) (k : String) (v : α) :
    List (String × α) :=
  match m with
  | [] => []
  | (k1, v1) :: rest =>
      if k1 = k then (k1, v) :: setReg rest k v else (k1, v1) :: setReg rest k v

/-- The dict `stop_twap_strategy` returns to its caller. -/
structure TwapStopResult where
  strategy_id : String
  status : TwapStatus
  total_executed : ℚ
  remaining_quantity : ℚ
  average_price : ℚ
  deriving Repr, DecidableEq

/-- `TWAPStrategy.stop_twap_strategy`: `ValueError` if the id is unknown;
otherwise set the record's status to STOPPED, stamp its end time, and
return the result dict (whose `status` field is the literal STOPPED). -/
def stop_twap_strategy (m : List (String × TwapState)) (sid : String) (t : ℕ) :
    Except PyErr (List (String × TwapState) × TwapStopResult) :=
  match lookupReg m sid with
  | none => .error .valueError
  | some s =>
      let s1 := stop_twap_record s t
      .ok (setReg m sid s1,
           { strategy_id := sid
             status := .stopped
             total_executed := s1.total_executed
             remaining_quantity := s1.remaining_quantity
             average_price := s1.average_price })

/-- The dict `stop_grid_strategy` returns to its caller. -/
structure GridStopResult where
  grid_id : String
  status : GridStatus
  total_orders : ℤ
  executed_orders : ℤ
  stopped_time : ℕ
  deriving Repr, DecidableEq

/-- `GridStrategy.stop_grid_strategy`: `ValueError` if the id is unknown;
otherwise set status STOPPED, stamp the stop time, run the cancellation
sweep, and return the result dict. -/
def stop_grid_strategy (m : List (String × GridState)) (gid : String) (t : ℕ)
    (cok : ℕ → Bool) :
    Except PyErr (List (String × GridState) × GridStopResult) :=
  match lookupReg m gid with
  | none => .error .valueError
  | some g =>
      let g1 := stop_grid_record g t cok
      .ok (setReg m gid g1,
           { grid_id := gid
             status := .stopped
             total_orders := g1.total_orders
             executed_orders := g1.executed_orders
             stopped_time := t })

/-- Facts that hold of every reachable state of a TWAP strategy (record
`s`, scheduler loop index `i`) created by a successful
`execute_twap_order`. -/
structure TwapInv (s : TwapState) (i : ℕ) : Prop where
  conservation : s.remaining_quantity + s.total_executed = s.total_quantity
  exec_eq : s.total_executed = sumQ s.executed_orders
  fills_le : s.executed_orders.length ≤ i
  idx_le : (i : ℤ) ≤ s.num_slices
  ns_pos : 0 < s.num_slices
  sq_pos : 0 < s.slice_quantity
  sq_eq : s.slice_quantity * ((s.num_slices : ℤ) : ℚ) = s.total_quantity
  run_rem : s.status = .running →
    s.remaining_quantity = (((s.num_slices : ℤ) : ℚ) - (i : ℚ)) * s.slice_quantity
  comp_rem : s.status = .completed → s.remaining_quantity = 0
  fill_pos : ∀ f ∈ s.executed_orders, 0 < f.quantity
  avg_eq : s.executed_orders ≠ [] →
    s.average_price = sumQP s.executed_orders / sumQ s.executed_orders

/-- The immutable projection of a level: its index, price and
quantity. -/
def levelKey (l : GridLevel) : ℤ × ℚ × ℚ := (l.level, l.price, l.quantity)

/-- The record `execute_twap_order("BTCUSDT", "BUY", 1, 10, 2)` creates
(at start tick 0). -/
def twapEx : TwapState :=
  { symbol := "BTCUSDT", side := "BUY", total_quantity := 1,
    remaining_quantity := 1, duration_minutes := 10, num_slices := 2,
    slice_quantity := 1 / 2, slice_interval := 300, start_time := 0,
    status := .running, executed_orders := [], total_executed := 0,
    average_price := 0 }

/-- The record `create_grid_strategy("BTCUSDT", "BUY", 55000, 45000, 5, 1)`
creates (at creation tick 0). -/
def gridEx : GridState :=
  { symbol := "BTCUSDT", grid_type := "BUY", upper_price := 55000,
    lower_price := 45000, grid_count := 5, price_step := 2500,
    order_quantity := 1,
    grid_levels :=
      [{ level := 1, price := 45000, quantity := 1, status := .pending,
         order_id := none },
       { level := 2, price := 47500, quantity := 1, status := .pending,
         order_id := none },
       { level := 3, price := 50000, quantity := 1, status := .pending,
         order_id := none },
       { level := 4, price := 52500, quantity := 1, status := .pending,
         order_id := none },
       { level := 5, price := 55000, quantity := 1, status := .pending,
         order_id := none }],
    status := .active, created_time := 0, total_orders := 0,
    executed_orders := 0 }

/-- The validation conditions `create_grid_strategy` checks explicitly. -/
def gridParamsValid (grid_type : String) (upper_price lower_price : ℚ)
    (grid_count : ℤ) (order_quantity : ℚ) : Prop :=
  (grid_type = "BUY" ∨ grid_type = "SELL" ∨ grid_type = "BOTH") ∧
  lower_price < upper_price ∧ 0 < grid_count ∧ 0 < order_quantity

/-- The read-only projection `get_strategy_status` builds from a TWAP
record for a caller (the id lookup is elided; `executed_slices` is
`len(executed_orders)`). -/
structure TwapStatusView where
  status : TwapStatus
  symbol : String
  side : String
  total_quantity : ℚ
  total_executed : ℚ
  remaining_quantity : ℚ
  average_price : ℚ
  num_slices : ℤ
  executed_slices : ℕ
  start_time : ℕ
  end_time : Option ℕ
  error : Option String
  deriving Repr, DecidableEq

/-- Body of `TWAPStrategy.get_strategy_status` applied to a found record:
the snapshot a concurrent reader obtains by reading the shared dict. -/
def get_strategy_status (s : TwapState) : TwapStatusView :=
  { status := s.status
    symbol := s.symbol
    side := s.side
    total_quantity := s.total_quantity
    total_executed := s.total_executed
    remaining_quantity := s.remaining_quantity
    average_price := s.average_price
    num_slices := s.num_slices
    executed_slices := s.executed_orders.length
    start_time := s.start_time
    end_time := s.end_time
    error := s.error }

/-- The successful-order update of `_execute_slice` as the source writes
it: four separate mutating statements on the shared record (append the
fill; decrement `remaining_quantity`; increment `total_executed`;
recompute `average_price`).  The list holds the record as a concurrent
reader can observe it before the update and after each statement — the
code takes no lock around the sequence. -/
def slice_update_states (s : TwapState) (slice_num : ℤ) (price : ℚ)
    (oid t : ℕ) : List TwapState :=
  let q := min s.slice_quantity s.remaining_quantity
  let s1 := { s with executed_orders := s.executed_orders ++
    [{ slice_num := slice_num, order_id := oid, quantity := q,
       price := price, timestamp := t }] }
  let s2 := { s1 with remaining_quantity := s1.remaining_quantity - q }
  let s3 := { s2 with total_executed := s2.total_executed + q }
  let s4 := { s3 with average_price :=
    if s3.total_executed > 0 then sumQP s3.executed_orders / s3.total_executed
    else 0 }
  [s, s1, s2, s3, s4]

/-- The state of `twapEx` after its first slice fills at price 50000. -/
def twapMid : TwapState :=
  { twapEx with
    executed_orders := [{ slice_num := 1, order_id := 7, quantity := 1 / 2,
                          price := 50000, timestamp := 1 }]
    remaining_quantity := 1 / 2
    total_executed := 1 / 2
    average_price := 50000 }

/-- The state of `twapEx` after both slices fill at price 50000, before
the completion check. -/
def twapRun2 : TwapState :=
  { twapEx with
    executed_orders := [{ slice_num := 1, order_id := 7, quantity := 1 / 2,
                          price := 50000, timestamp := 1 },
                        { slice_num := 2, order_id := 8, quantity := 1 / 2,
                          price := 50000, timestamp := 2 }]
    remaining_quantity := 0
    total_executed := 1
    average_price := 50000 }

/-- The terminal COMPLETED state of `twapEx` after both slices and the
completion check. -/
def twapDone : TwapState :=
  { twapRun2 with status := .completed, end_time := some 3 }

/-- A grid level already EXECUTED, used to exercise the terminal-level
theorems. -/
def gridLvlDone : GridLevel :=
  { level := 1, price := 45000, quantity := 1, status := .executed,
    order_id := some 7, executed_time := some 2 }

/-! ## Lemmas and claim theorems -/

/-! ## Arithmetic lemmas about rounding -/

lemma roundHalfEven_ge_floor (q : ℚ) : ⌊q⌋ ≤ roundHalfEven q := by
  unfold roundHalfEven
  split_ifs <;> omega

lemma roundHalfEven_le_floor_add_one (q : ℚ) : roundHalfEven q ≤ ⌊q⌋ + 1 := by
  unfold roundHalfEven
  split_ifs <;> omega

lemma roundHalfEven_mono {q r : ℚ} (h : q ≤ r) :
    roundHalfEven q ≤ roundHalfEven r := by
  rcases lt_or_eq_of_le (Int.floor_mono h) with hf | hf
  · calc roundHalfEven q ≤ ⌊q⌋ + 1 := roundHalfEven_le_floor_add_one q
      _ ≤ ⌊r⌋ := by omega
      _ ≤ roundHalfEven r := roundHalfEven_ge_floor r
  · have hfr : Int.fract q ≤ Int.fract r := by
      unfold Int.fract
      rw [hf] at *
      linarith
    unfold roundHalfEven
    rw [hf]
    split_ifs <;> first | omega | linarith

lemma round2_mono {q r : ℚ} (h : q ≤ r) : round2 q ≤ round2 r := by
  unfold round2
  have := roundHalfEven_mono (mul_le_mul_of_nonneg_right h (by norm_num : (0:ℚ) ≤ 100))
  have hc : ((roundHalfEven (q * 100) : ℚ)) ≤ ((roundHalfEven (r * 100) : ℚ)) := by
    exact_mod_cast this
  linarith

/-! ## Lemmas about fill sums -/

lemma sumQ_append (fs : List TwapFill) (f : TwapFill) :
    sumQ (fs ++ [f]) = sumQ fs + f.quantity := by
  simp [sumQ]

lemma sumQ_nonneg {fs : List TwapFill} (h : ∀ f ∈ fs, 0 < f.quantity) :
    0 ≤ sumQ fs := by
  unfold sumQ
  apply List.sum_nonneg
  intro x hx
  simp only [List.mem_map] at hx
  obtain ⟨f, hf, rfl⟩ := hx
  exact le_of_lt (h f hf)

/-! ## Inversion of successful TWAP creation -/

lemma execute_twap_order_ok_inv {sym side : String} {tq : ℚ} {dm ns : ℤ}
    {t : ℕ} {s0 : TwapState}
    (h : execute_twap_order sym side tq dm ns t = .ok s0) :
    0 < tq ∧ 0 < ns ∧
    s0.total_quantity = tq ∧ s0.remaining_quantity = tq ∧
    s0.num_slices = ns ∧ s0.slice_quantity = tq / (ns : ℚ) ∧
    s0.status = .running ∧ s0.executed_orders = [] ∧
    s0.total_executed = 0 ∧ s0.average_price = 0 := by
  unfold execute_twap_order at h
  split_ifs at h with h1 h2 h3 h4
  have hns : (0 : ℤ) < ns := by omega
  have hnsq : ((ns : ℤ) : ℚ) ≠ 0 := by
    exact_mod_cast (by omega : (ns : ℤ) ≠ 0)
  simp only [pydiv, if_neg hnsq] at h
  rw [Except.ok.injEq] at h
  subst h
  refine ⟨by linarith, hns, rfl, rfl, rfl, rfl, rfl, rfl, rfl, rfl⟩

/-! ## The master invariant of a running TWAP strategy -/

lemma twap_inv_init {sym side : String} {tq : ℚ} {dm ns : ℤ} {t : ℕ}
    {s0 : TwapState} (h : execute_twap_order sym side tq dm ns t = .ok s0) :
    TwapInv s0 0 := by
  obtain ⟨htq, hns, e1, e2, e3, e4, e5, e6, e7, e8⟩ := execute_twap_order_ok_inv h
  have hnsq : (0 : ℚ) < ((ns : ℤ) : ℚ) := by exact_mod_cast hns
  constructor
  · rw [e2, e7, e1]; ring
  · rw [e7, e6]; simp [sumQ]
  · simp [e6]
  · simp [e3]; omega
  · rw [e3]; exact hns
  · rw [e4]; positivity
  · rw [e4, e3, e1]; field_simp
  · intro _
    rw [e2, e4, e3]
    push_cast
    field_simp
  · intro hc; rw [e5] at hc; cases hc
  · rw [e6]; intro f hf; cases hf
  · intro hne; rw [e6] at hne; cases hne rfl

lemma twap_inv_step {p : TwapState × ℕ} (hI : TwapInv p.1 p.2) (e : TwapEvent) :
    TwapInv (twapSysStep p e).1 (twapSysStep p e).2 := by
  obtain ⟨s, i⟩ := p
  cases e with
  | slice price oid t ok msg =>
      simp only [twapSysStep]
      split_ifs with hg
      · obtain ⟨hlt, hrun⟩ := hg
        have hrem : s.remaining_quantity =
            (((s.num_slices : ℤ) : ℚ) - (i : ℚ)) * s.slice_quantity :=
          hI.run_rem hrun
        have hi1 : (i : ℚ) + 1 ≤ ((s.num_slices : ℤ) : ℚ) := by
          have : (i : ℤ) + 1 ≤ s.num_slices := by omega
          exact_mod_cast this
        have hrpos : 0 < s.remaining_quantity := by
          rw [hrem]
          have h1 : (0 : ℚ) < ((s.num_slices : ℤ) : ℚ) - (i : ℚ) := by linarith
          exact mul_pos h1 hI.sq_pos
        have hq : min s.slice_quantity s.remaining_quantity = s.slice_quantity := by
          apply min_eq_left
          rw [hrem]
          calc s.slice_quantity = 1 * s.slice_quantity := (one_mul _).symm
            _ ≤ (((s.num_slices : ℤ) : ℚ) - (i : ℚ)) * s.slice_quantity :=
                mul_le_mul_of_nonneg_right (by linarith) (le_of_lt hI.sq_pos)
        simp only [execute_slice, if_neg (not_le.mpr hrpos), hq]
        cases ok with
        | false =>
            simp only [Bool.false_eq_true, if_false]
            constructor <;> simp only []
            · exact hI.conservation
            · exact hI.exec_eq
            · exact le_trans hI.fills_le (by omega)
            · push_cast; omega
            · exact hI.ns_pos
            · exact hI.sq_pos
            · exact hI.sq_eq
            · intro h; simp at h
            · intro h; simp at h
            · exact hI.fill_pos
            · exact hI.avg_eq
        | true =>
            simp only [if_true]
            have hexec : s.total_executed +
                s.slice_quantity = sumQ (s.executed_orders ++
                  [{ slice_num := (i : ℤ) + 1, order_id := oid,
                     quantity := s.slice_quantity, price := price,
                     timestamp := t }]) := by
              rw [sumQ_append]
              rw [hI.exec_eq]
            have hexecpos : 0 < s.total_executed + s.slice_quantity := by
              have := sumQ_nonneg hI.fill_pos
              rw [hI.exec_eq] at *
              linarith [hI.sq_pos]
            constructor
            · simp only []
              have := hI.conservation
              linarith
            · simp only []
              exact hexec
            · simp only [List.length_append, List.length_cons, List.length_nil]
              have h5 : s.executed_orders.length ≤ i := hI.fills_le
              omega
            · simp only []
              push_cast
              omega
            · exact hI.ns_pos
            · exact hI.sq_pos
            · exact hI.sq_eq
            · intro _
              simp only []
              rw [hrem]
              push_cast
              ring
            · intro h
              exact absurd h (by rw [show ({ s with
                  executed_orders := _, remaining_quantity := _,
                  total_executed := _, average_price := _ } : TwapState).status
                  = s.status from rfl, hrun]; simp)
            · intro f hf
              simp only [List.mem_append, List.mem_singleton] at hf
              rcases hf with hf | hf
              · exact hI.fill_pos f hf
              · subst hf; exact hI.sq_pos
            · intro _
              simp only []
              rw [if_pos hexecpos, hexec]
      · exact hI
  | finish t =>
      simp only [twapSysStep]
      split_ifs with hg
      · obtain ⟨hrun, hnlt⟩ := hg
        have hiN : (i : ℤ) = s.num_slices := le_antisymm hI.idx_le (by omega)
        constructor <;> simp only []
        · exact hI.conservation
        · exact hI.exec_eq
        · exact hI.fills_le
        · exact hI.idx_le
        · exact hI.ns_pos
        · exact hI.sq_pos
        · exact hI.sq_eq
        · intro h; simp at h
        · intro _
          rw [hI.run_rem hrun]
          have : ((s.num_slices : ℤ) : ℚ) = (i : ℚ) := by exact_mod_cast hiN.symm
          rw [this]; ring
        · exact hI.fill_pos
        · exact hI.avg_eq
      · exact hI
  | stop t =>
      simp only [twapSysStep, stop_twap_record]
      constructor <;> simp only []
      · exact hI.conservation
      · exact hI.exec_eq
      · exact hI.fills_le
      · exact hI.idx_le
      · exact hI.ns_pos
      · exact hI.sq_pos
      · exact hI.sq_eq
      · intro h; simp at h
      · intro h; simp at h
      · exact hI.fill_pos
      · exact hI.avg_eq
  | crash msg =>
      simp only [twapSysStep]
      constructor <;> simp only []
      · exact hI.conservation
      · exact hI.exec_eq
      · exact hI.fills_le
      · exact hI.idx_le
      · exact hI.ns_pos
      · exact hI.sq_pos
      · exact hI.sq_eq
      · intro h; simp at h
      · intro h; simp at h
      · exact hI.fill_pos
      · exact hI.avg_eq

lemma twap_reach_inv {sym side : String} {tq : ℚ} {dm ns : ℤ} {t : ℕ}
    {s0 : TwapState} {p : TwapState × ℕ}
    (h0 : execute_twap_order sym side tq dm ns t = .ok s0)
    (hr : TwapReach s0 p) : TwapInv p.1 p.2 := by
  induction hr with
  | init => exact twap_inv_init h0
  | step e _ ih => exact twap_inv_step ih e

/-! ## Inversion of successful grid creation -/

lemma create_grid_ok_inv {sym gt : String} {u l : ℚ} {cnt : ℤ} {qty : ℚ}
    {t : ℕ} {g0 : GridState}
    (h : create_grid_strategy sym gt u l cnt qty t = .ok g0) :
    (gt = "BUY" ∨ gt = "SELL" ∨ gt = "BOTH") ∧ l < u ∧ 0 < cnt ∧ cnt ≠ 1 ∧
    0 < qty ∧
    g0 = { symbol := sym, grid_type := gt, upper_price := u, lower_price := l,
           grid_count := cnt,
           price_step := (u - l) / ((cnt - 1 : ℤ) : ℚ),
           order_quantity := qty,
           grid_levels := (List.range cnt.toNat).map (fun (i : ℕ) =>
             { level := (i : ℤ) + 1,
               price := round2 (l + (i : ℚ) * ((u - l) / ((cnt - 1 : ℤ) : ℚ))),
               quantity := qty, status := .pending, order_id := none }),
           status := .active, created_time := t,
           total_orders := 0, executed_orders := 0 } := by
  unfold create_grid_strategy at h
  split_ifs at h with h1 h2 h3 h4
  by_cases h5 : ((cnt - 1 : ℤ) : ℚ) = 0
  · simp [pydiv, h5] at h
  · simp only [pydiv, if_neg h5] at h
    rw [Except.ok.injEq] at h
    have hcnt1 : cnt ≠ 1 := by
      intro he
      apply h5
      rw [he]
      norm_num
    exact ⟨h1, by linarith [not_le.mp h2], by omega, hcnt1,
           by linarith [not_le.mp h4], h.symm⟩

/-! ## Level-wise behaviour of the grid steps -/

lemma poll_level_not_pending {gt : String} {price : ℚ} {ok : ℤ → Bool}
    {oid : ℤ → ℕ} {t : ℕ} {msg : String} {l : GridLevel}
    (h : l.status ≠ .pending) :
    poll_level gt price ok oid t msg l = l := by
  unfold poll_level
  rw [if_neg]
  intro hc
  exact h hc.1

lemma cancel_level_not_pending {cok : ℕ → Bool} {l : GridLevel}
    (h : l.status ≠ .pending) :
    cancel_level cok l = l := by
  unfold cancel_level
  cases l.order_id with
  | none => rfl
  | some oid => simp [h]

lemma poll_level_key (gt : String) (price : ℚ) (ok : ℤ → Bool)
    (oid : ℤ → ℕ) (t : ℕ) (msg : String) (l : GridLevel) :
    levelKey (poll_level gt price ok oid t msg l) = levelKey l := by
  unfold poll_level
  split_ifs <;> rfl

lemma cancel_level_key (cok : ℕ → Bool) (l : GridLevel) :
    levelKey (cancel_level cok l) = levelKey l := by
  unfold cancel_level
  cases l.order_id with
  | none => rfl
  | some oid =>
      by_cases h1 : l.status = .pending
      · by_cases h2 : cok oid = true
        · simp [h1, h2, levelKey]
        · simp [h1, h2]
      · simp [h1]

lemma poll_level_status (gt : String) (price : ℚ) (ok : ℤ → Bool)
    (oid : ℤ → ℕ) (t : ℕ) (msg : String) (l : GridLevel) :
    poll_level gt price ok oid t msg l = l ∨
      (l.status = .pending ∧
        (poll_level gt price ok oid t msg l).status ≠ .pending) := by
  unfold poll_level
  split_ifs with h1 h2
  · right
    exact ⟨h1.1, by simp⟩
  · right
    exact ⟨h1.1, by simp⟩
  · left; rfl

lemma cancel_level_status (cok : ℕ → Bool) (l : GridLevel) :
    cancel_level cok l = l ∨
      (l.status = .pending ∧ (cancel_level cok l).status ≠ .pending) := by
  unfold cancel_level
  cases l.order_id with
  | none => left; rfl
  | some oid =>
      by_cases h1 : l.status = .pending
      · by_cases h2 : cok oid = true
        · right
          refine ⟨h1, ?_⟩
          simp [h1, h2]
        · left
          simp [h1, h2]
      · left
        simp [h1]

/-- A single grid step either leaves a level untouched or moves it out of
PENDING; a level already out of PENDING is never touched again. -/
lemma gridStep_level (g : GridState) (e : GridEvent) (i : ℕ) :
    ((gridStep g e).grid_levels[i]? = g.grid_levels[i]? ∧
      (gridStep g e).grid_levels.length = g.grid_levels.length) ∨
    (∃ l l', g.grid_levels[i]? = some l ∧
      (gridStep g e).grid_levels[i]? = some l' ∧
      (gridStep g e).grid_levels.length = g.grid_levels.length ∧
      (l' = l ∨ (l.status = .pending ∧ l'.status ≠ .pending))) := by
  cases e with
  | poll price ok oid t msg =>
      simp only [gridStep]
      split_ifs with hg
      · rcases hl : g.grid_levels[i]? with _ | l
        · left
          constructor
          · simp [poll_levels, hl]
          · simp [poll_levels]
        · right
          refine ⟨l, poll_level g.grid_type price ok oid t msg l, rfl, ?_, ?_, ?_⟩
          · simp [poll_levels, hl]
          · simp [poll_levels]
          · exact poll_level_status g.grid_type price ok oid t msg l
      · left; exact ⟨rfl, rfl⟩
  | stop t cok =>
      simp only [gridStep, stop_grid_record]
      rcases hl : g.grid_levels[i]? with _ | l
      · left
        constructor
        · simp [cancel_levels, hl]
        · simp [cancel_levels]
      · right
        refine ⟨l, cancel_level cok l, rfl, ?_, ?_, ?_⟩
        · simp [cancel_levels, hl]
        · simp [cancel_levels]
        · exact cancel_level_status cok l
  | crash msg =>
      left
      exact ⟨rfl, rfl⟩

/-- A level that a step leaves PENDING was not touched by the step. -/
lemma poll_level_pending_eq {gt : String} {price : ℚ} {ok : ℤ → Bool}
    {oid : ℤ → ℕ} {t : ℕ} {msg : String} {l : GridLevel}
    (h : (poll_level gt price ok oid t msg l).status = .pending) :
    poll_level gt price ok oid t msg l = l := by
  rcases poll_level_status gt price ok oid t msg l with he | ⟨_, hne⟩
  · exact he
  · exact absurd h hne

lemma cancel_level_pending_eq {cok : ℕ → Bool} {l : GridLevel}
    (h : (cancel_level cok l).status = .pending) :
    cancel_level cok l = l := by
  rcases cancel_level_status cok l with he | ⟨_, hne⟩
  · exact he
  · exact absurd h hne

/-- Invariant: a PENDING level carries no order id.  Preserved by every
grid step. -/
lemma grid_pending_none_step (g : GridState) (e : GridEvent)
    (h : ∀ l ∈ g.grid_levels, l.status = .pending → l.order_id = none) :
    ∀ l ∈ (gridStep g e).grid_levels, l.status = .pending → l.order_id = none := by
  cases e with
  | poll price ok oid t msg =>
      simp only [gridStep]
      split_ifs with hg
      · intro l1 hl1 hp
        simp only [poll_levels, List.mem_map] at hl1
        obtain ⟨l, hl, rfl⟩ := hl1
        have he := poll_level_pending_eq hp
        rw [he] at hp ⊢
        exact h l hl hp
      · exact h
  | stop t cok =>
      simp only [gridStep, stop_grid_record]
      intro l1 hl1 hp
      simp only [cancel_levels, List.mem_map] at hl1
      obtain ⟨l, hl, rfl⟩ := hl1
      have he := cancel_level_pending_eq hp
      rw [he] at hp ⊢
      exact h l hl hp
  | crash msg => exact h

lemma grid_reach_pending_none {sym gt : String} {u l : ℚ} {cnt : ℤ} {qty : ℚ}
    {t : ℕ} {g0 g : GridState}
    (h0 : create_grid_strategy sym gt u l cnt qty t = .ok g0)
    (hr : GridReach g0 g) :
    ∀ lv ∈ g.grid_levels, lv.status = .pending → lv.order_id = none := by
  induction hr with
  | init =>
      obtain ⟨-, -, -, -, -, hg0⟩ := create_grid_ok_inv h0
      rw [hg0]
      intro lv hlv _
      simp only [List.mem_map, List.mem_range] at hlv
      obtain ⟨i, -, rfl⟩ := hlv
      rfl
  | step e _ ih => exact grid_pending_none_step _ e ih

/-- The immutable projection of the level list is preserved by every grid
step. -/
lemma gridStep_key (g : GridState) (e : GridEvent) :
    (gridStep g e).grid_levels.map levelKey = g.grid_levels.map levelKey := by
  cases e with
  | poll price ok oid t msg =>
      simp only [gridStep]
      split_ifs with hg
      · simp only [poll_levels, List.map_map]
        apply List.map_congr_left
        intro l _
        exact poll_level_key g.grid_type price ok oid t msg l
      · rfl
  | stop t cok =>
      simp only [gridStep, stop_grid_record]
      simp only [cancel_levels, List.map_map]
      apply List.map_congr_left
      intro l _
      exact cancel_level_key cok l
  | crash msg => rfl

/-! ## Registry update lemma -/

lemma lookupReg_setReg {α : Type} {m : List (String × α)} {k : String} {s : α}
    (h : lookupReg m k = some s) (v : α) :
    lookupReg (setReg m k v) k = some v := by
  induction m with
  | nil => simp [lookupReg] at h
  | cons kv rest ih =>
      obtain ⟨k1, v1⟩ := kv
      by_cases hk : k1 = k
      · simp [lookupReg, setReg, hk]
      · simp only [lookupReg, setReg, if_neg hk] at h ⊢
        exact ih h

/-! ## Concrete example states -/

lemma twapEx_ok : execute_twap_order "BTCUSDT" "BUY" 1 10 2 0 = .ok twapEx := by
  simp only [execute_twap_order, pydiv]
  norm_num [twapEx]

lemma roundHalfEven_intCast (n : ℤ) : roundHalfEven ((n : ℚ)) = n := by
  unfold roundHalfEven
  rw [Int.fract_intCast]
  rw [if_pos (by norm_num), Int.floor_intCast]

lemma round2_int (n : ℤ) : round2 ((n : ℚ)) = (n : ℚ) := by
  unfold round2
  have h : ((n : ℚ)) * 100 = (((n * 100 : ℤ)) : ℚ) := by push_cast; ring
  rw [h, roundHalfEven_intCast]
  push_cast
  ring

lemma gridEx_ok :
    create_grid_strategy "BTCUSDT" "BUY" 55000 45000 5 1 0 = .ok gridEx := by
  simp only [create_grid_strategy, pydiv]
  norm_num [gridEx]
  rw [show Int.toNat 5 = 5 from rfl]
  simp [List.range_succ]
  refine ⟨?_, ?_, ?_, ?_, ?_⟩
  · rw [show (45000 : ℚ) = ((45000 : ℤ) : ℚ) from by norm_num, round2_int]
  · rw [show (45000 + 2500 : ℚ) = ((47500 : ℤ) : ℚ) from by norm_num, round2_int]
    norm_num
  · rw [show (45000 + 2 * 2500 : ℚ) = ((50000 : ℤ) : ℚ) from by norm_num, round2_int]
    norm_num
  · rw [show (45000 + 3 * 2500 : ℚ) = ((52500 : ℤ) : ℚ) from by norm_num, round2_int]
    norm_num
  · rw [show (45000 + 4 * 2500 : ℚ) = ((55000 : ℤ) : ℚ) from by norm_num, round2_int]
    norm_num

lemma twap_step1 : twapSysStep (twapEx, 0) (.slice 50000 7 1 true "") = (twapMid, 1) := by
  norm_num [twapSysStep, execute_slice, twapEx, twapMid, sumQP, min_def]

lemma twap_step2 : twapSysStep (twapMid, 1) (.slice 50000 8 2 true "") = (twapRun2, 2) := by
  norm_num [twapSysStep, execute_slice, twapMid, twapRun2, twapEx, sumQP, min_def]

lemma twap_step3 : twapSysStep (twapRun2, 2) (.finish 3) = (twapDone, 2) := by
  norm_num [twapSysStep, twapRun2, twapDone, twapEx]

lemma twapMid_reach : TwapReach twapEx (twapMid, 1) := by
  have r1 : TwapReach twapEx
      (twapSysStep (twapEx, 0) (.slice 50000 7 1 true "")) :=
    TwapReach.step (.slice 50000 7 1 true "") TwapReach.init
  rw [twap_step1] at r1
  exact r1

lemma twapDone_reach : TwapReach twapEx (twapDone, 2) := by
  have r2 := TwapReach.step (.slice 50000 8 2 true "") twapMid_reach
  rw [twap_step2] at r2
  have r3 := TwapReach.step (.finish 3) r2
  rw [twap_step3] at r3
  exact r3

/-- Complete case analysis of `create_grid_strategy` on invalid
parameters: any violated validation condition raises `ValueError`. -/
lemma create_grid_invalid {sym gt : String} {u l : ℚ} {cnt : ℤ} {qty : ℚ}
    {t : ℕ} (h : ¬ gridParamsValid gt u l cnt qty) :
    create_grid_strategy sym gt u l cnt qty t = .error .valueError := by
  unfold create_grid_strategy
  split_ifs with h1 h2 h3 h4
  · rfl
  · rfl
  · rfl
  · exact absurd ⟨h1, not_le.mp h2, not_le.mp h3, not_le.mp h4⟩ h
  · rfl

/-- Validation passes for `levelCount = 1` but the `price_step` division
then divides by zero. -/
lemma create_grid_zero_div {sym gt : String} {u l : ℚ} {qty : ℚ} {t : ℕ}
    (h : gridParamsValid gt u l 1 qty) :
    create_grid_strategy sym gt u l 1 qty t = .error .zeroDivisionError := by
  obtain ⟨hgt, hlu, -, hqty⟩ := h
  unfold create_grid_strategy
  rw [if_neg (not_not_intro hgt), if_neg (not_le.mpr hlu),
      if_neg (by norm_num), if_neg (not_le.mpr hqty)]
  norm_num [pydiv]

/-- With valid parameters and `levelCount ≠ 1` the creation succeeds and
returns the record the source builds. -/
lemma create_grid_valid_ok {sym gt : String} {u l : ℚ} {cnt : ℤ} {qty : ℚ}
    {t : ℕ} (h : gridParamsValid gt u l cnt qty) (h1 : cnt ≠ 1) :
    create_grid_strategy sym gt u l cnt qty t =
      .ok { symbol := sym, grid_type := gt, upper_price := u, lower_price := l,
            grid_count := cnt,
            price_step := (u - l) / ((cnt - 1 : ℤ) : ℚ),
            order_quantity := qty,
            grid_levels := (List.range cnt.toNat).map (fun (i : ℕ) =>
              { level := (i : ℤ) + 1,
                price := round2 (l + (i : ℚ) * ((u - l) / ((cnt - 1 : ℤ) : ℚ))),
                quantity := qty, status := .pending, order_id := none }),
            status := .active, created_time := t,
            total_orders := 0, executed_orders := 0 } := by
  obtain ⟨hgt, hlu, hcnt, hqty⟩ := h
  have hne : ((cnt - 1 : ℤ) : ℚ) ≠ 0 := by
    have : (cnt - 1 : ℤ) ≠ 0 := by omega
    exact_mod_cast this
  unfold create_grid_strategy
  rw [if_neg (not_not_intro hgt), if_neg (not_le.mpr hlu),
      if_neg (by omega), if_neg (not_le.mpr hqty)]
  simp only [pydiv, if_neg hne]

/-! ## Claim theorems -/

/-- C3: for every TWAP strategy created by a successful
`execute_twap_order`, in every reachable state after the start,
`remaining_quantity + total_executed = total_quantity`, the number of
recorded fills never exceeds `num_slices`, and from any reachable state
every further step only appends to `executed_orders` and only decreases
`remaining_quantity`. -/
theorem twap_quantity_invariants {sym side : String} {tq : ℚ} {dm ns : ℤ}
    {t : ℕ} {s0 s : TwapState} {i : ℕ}
    (h0 : execute_twap_order sym side tq dm ns t = .ok s0)
    (hr : TwapReach s0 (s, i)) :
    s.remaining_quantity + s.total_executed = s.total_quantity ∧
    (s.executed_orders.length : ℤ) ≤ s.num_slices ∧
    ∀ e, (twapSysStep (s, i) e).1.remaining_quantity ≤ s.remaining_quantity ∧
      ∃ new, (twapSysStep (s, i) e).1.executed_orders =
        s.executed_orders ++ new := by
  have hI := twap_reach_inv h0 hr
  refine ⟨hI.conservation, ?_, ?_⟩
  · have h1 : s.executed_orders.length ≤ i := hI.fills_le
    have h2 : (i : ℤ) ≤ s.num_slices := hI.idx_le
    omega
  · intro e
    cases e with
    | slice price oid tt ok msg =>
        simp only [twapSysStep]
        split_ifs with hg
        · simp only [execute_slice]
          split_ifs with hr0 hok havg
          · exact ⟨le_refl _, [], by simp⟩
          · constructor
            · have hq : 0 ≤ min s.slice_quantity s.remaining_quantity :=
                le_min (le_of_lt hI.sq_pos) (le_of_lt (lt_of_not_le hr0))
              simp only []
              linarith
            · exact ⟨_, rfl⟩
          · constructor
            · have hq : 0 ≤ min s.slice_quantity s.remaining_quantity :=
                le_min (le_of_lt hI.sq_pos) (le_of_lt (lt_of_not_le hr0))
              simp only []
              linarith
            · exact ⟨_, rfl⟩
          · exact ⟨le_refl _, [], by simp⟩
        · exact ⟨le_refl _, [], by simp⟩
    | finish tt =>
        simp only [twapSysStep]
        split_ifs with hg
        · exact ⟨le_refl _, [], by simp⟩
        · exact ⟨le_refl _, [], by simp⟩
    | stop tt =>
        exact ⟨le_refl _, [], by simp [twapSysStep, stop_twap_record]⟩
    | crash msg =>
        exact ⟨le_refl _, [], by simp [twapSysStep]⟩

/-- C3 witness: the invariants instantiated at the strategy
`execute_twap_order("BTCUSDT", "BUY", 1, 10, 2)` after its first slice
fills at price 50000. -/
theorem twap_quantity_invariants_witness :
    twapMid.remaining_quantity + twapMid.total_executed =
      twapMid.total_quantity ∧
    (twapMid.executed_orders.length : ℤ) ≤ twapMid.num_slices := by
  have h := twap_quantity_invariants twapEx_ok twapMid_reach
  exact ⟨h.1, h.2.1⟩

/-- C4: every reachable COMPLETED state of a TWAP strategy has fill
quantities summing exactly to `total_quantity` (the last slice executes
`min(slice_quantity, remaining_quantity)`, absorbing any remainder). -/
theorem twap_completed_fill_sum {sym side : String} {tq : ℚ} {dm ns : ℤ}
    {t : ℕ} {s0 s : TwapState} {i : ℕ}
    (h0 : execute_twap_order sym side tq dm ns t = .ok s0)
    (hr : TwapReach s0 (s, i)) (hc : s.status = .completed) :
    sumQ s.executed_orders = s.total_quantity := by
  have hI := twap_reach_inv h0 hr
  have h1 : s.remaining_quantity = 0 := hI.comp_rem hc
  have h2 : s.remaining_quantity + s.total_executed = s.total_quantity :=
    hI.conservation
  have h3 : s.total_executed = sumQ s.executed_orders := hI.exec_eq
  linarith

/-- C4 witness: the completed run of
`execute_twap_order("BTCUSDT", "BUY", 1, 10, 2)` against a gateway filling
both slices at price 50000 has fill sum 1. -/
theorem twap_completed_fill_sum_witness :
    sumQ twapDone.executed_orders = twapDone.total_quantity :=
  twap_completed_fill_sum twapEx_ok twapDone_reach rfl

/-- C5: in every reachable TWAP state with at least one fill,
`average_price` equals the quantity-weighted average
`Σ(qty·price) / Σqty` over the fills recorded so far. -/
theorem twap_vwap_correct {sym side : String} {tq : ℚ} {dm ns : ℤ}
    {t : ℕ} {s0 s : TwapState} {i : ℕ}
    (h0 : execute_twap_order sym side tq dm ns t = .ok s0)
    (hr : TwapReach s0 (s, i)) (hne : s.executed_orders ≠ []) :
    s.average_price = sumQP s.executed_orders / sumQ s.executed_orders :=
  (twap_reach_inv h0 hr).avg_eq hne

/-- C5 witness: after the first fill of the example strategy the recorded
average price is the weighted average of its single fill. -/
theorem twap_vwap_correct_witness :
    twapMid.average_price = sumQP twapMid.executed_orders /
      sumQ twapMid.executed_orders :=
  twap_vwap_correct twapEx_ok twapMid_reach (by simp [twapMid, twapEx])

/-- C7: the trigger predicate `_should_trigger_order` fires exactly when
`currentPrice ≤ levelPrice` for BUY grids, `currentPrice ≥ levelPrice`
for SELL grids, and `|currentPrice − levelPrice| < levelPrice·0.001` for
BOTH grids. -/
theorem grid_trigger_predicate (c l : ℚ) :
    (should_trigger_order c l "BUY" = true ↔ c ≤ l) ∧
    (should_trigger_order c l "SELL" = true ↔ l ≤ c) ∧
    (should_trigger_order c l "BOTH" = true ↔ |c - l| < l * (1 / 1000)) := by
  unfold should_trigger_order
  refine ⟨?_, ?_, ?_⟩
  · rw [if_pos rfl]
    exact decide_eq_true_iff
  · rw [if_neg (by decide), if_pos rfl]
    exact decide_eq_true_iff
  · rw [if_neg (by decide), if_neg (by decide)]
    exact decide_eq_true_iff

/-- C2 counterexample: `levelCount = 1` passes validation together with
otherwise valid parameters, yet the creation call does not succeed — the
`price_step` division `(upper−lower)/(levelCount−1)` divides by zero and
the call raises `ZeroDivisionError`. -/
theorem create_grid_levelcount_one_cex :
    gridParamsValid "BUY" 55000 45000 1 1 ∧
    create_grid_strategy "BTCUSDT" "BUY" 55000 45000 1 1 0 =
      .error .zeroDivisionError := by
  constructor
  · exact ⟨Or.inl rfl, by norm_num, by norm_num, by norm_num⟩
  · norm_num [create_grid_strategy, pydiv]

/-- C2 amended: a `create_grid_strategy` call with a valid grid type,
`upperPrice > lowerPrice`, `levelCount ≥ 2` and `perLevelQuantity > 0`
succeeds and creates exactly `levelCount` levels with
`priceStep = (upper−lower)/(levelCount−1)`; it fails with `ValueError`
exactly when one of the four validated conditions is violated, and with
`ZeroDivisionError` exactly when validation passes but `levelCount = 1`. -/
theorem create_grid_validation_amended (sym gt : String) (u l : ℚ)
    (cnt : ℤ) (qty : ℚ) (t : ℕ) :
    (gridParamsValid gt u l cnt qty ∧ 2 ≤ cnt →
      ∃ g, create_grid_strategy sym gt u l cnt qty t = .ok g ∧
        (g.grid_levels.length : ℤ) = cnt ∧
        g.price_step = (u - l) / ((cnt : ℚ) - 1)) ∧
    (create_grid_strategy sym gt u l cnt qty t = .error .valueError ↔
      ¬ gridParamsValid gt u l cnt qty) ∧
    (create_grid_strategy sym gt u l cnt qty t = .error .zeroDivisionError ↔
      gridParamsValid gt u l cnt qty ∧ cnt = 1) := by
  refine ⟨?_, ?_, ?_⟩
  · rintro ⟨hv, h2⟩
    refine ⟨_, create_grid_valid_ok hv (by omega), ?_, ?_⟩
    · simp only [List.length_map, List.length_range]
      omega
    · push_cast
      norm_num
  · constructor
    · intro h
      intro hv
      by_cases h1 : cnt = 1
      · rw [h1] at h
        rw [h1] at hv
        rw [create_grid_zero_div hv] at h
        simp at h
      · rw [create_grid_valid_ok hv h1] at h
        simp at h
    · exact create_grid_invalid
  · constructor
    · intro h
      by_cases hv : gridParamsValid gt u l cnt qty
      · refine ⟨hv, ?_⟩
        by_contra h1
        rw [create_grid_valid_ok hv h1] at h
        simp at h
      · rw [create_grid_invalid hv] at h
        simp at h
    · rintro ⟨hv, rfl⟩
      exact create_grid_zero_div hv

/-- C2 witness: the amended theorem instantiated at the valid parameters
(BUY grid, range 45000–55000, 5 levels, quantity 1). -/
theorem create_grid_validation_amended_witness :
    ∃ g, create_grid_strategy "BTCUSDT" "BUY" 55000 45000 5 1 0 = .ok g ∧
      (g.grid_levels.length : ℤ) = 5 ∧
      g.price_step = (55000 - 45000) / ((5 : ℚ) - 1) := by
  exact (create_grid_validation_amended "BTCUSDT" "BUY" 55000 45000 5 1 0).1
    ⟨⟨Or.inl rfl, by norm_num, by norm_num, by norm_num⟩, by norm_num⟩

/-- C10: in every reachable state of a grid strategy a PENDING level has
no order id (order ids are assigned only together with the transition to
EXECUTED); hence the cancellation branch of the stop operation has
nothing to cancel — `stop_grid_strategy` issues no `cancelOrder` call and
its cancellation sweep leaves every level unchanged. -/
theorem grid_pending_no_order_id {sym gt : String} {u l : ℚ} {cnt : ℤ}
    {qty : ℚ} {t : ℕ} {g0 g : GridState}
    (h0 : create_grid_strategy sym gt u l cnt qty t = .ok g0)
    (hr : GridReach g0 g) :
    (∀ lv ∈ g.grid_levels, lv.status = .pending → lv.order_id = none) ∧
    pending_cancel_orders g.grid_levels = [] ∧
    ∀ cok, cancel_levels cok g.grid_levels = g.grid_levels := by
  have hinv := grid_reach_pending_none h0 hr
  refine ⟨hinv, ?_, ?_⟩
  · unfold pending_cancel_orders
    rw [List.filterMap_eq_nil_iff]
    intro lv hlv
    rw [if_neg]
    rintro ⟨hp, hs⟩
    rw [hinv lv hlv hp] at hs
    simp at hs
  · intro cok
    unfold cancel_levels
    conv_rhs => rw [← List.map_id g.grid_levels]
    apply List.map_congr_left
    intro lv hlv
    show cancel_level cok lv = lv
    unfold cancel_level
    cases ho : lv.order_id with
    | none => rfl
    | some oid =>
        have hp : lv.status ≠ .pending := by
          intro hp
          rw [hinv lv hlv hp] at ho
          cases ho
        simp [hp]

/-- C10 witness: the invariant instantiated at the freshly created
example grid. -/
theorem grid_pending_no_order_id_witness :
    pending_cancel_orders gridEx.grid_levels = [] ∧
    cancel_levels (fun _ => true) gridEx.grid_levels = gridEx.grid_levels := by
  have h := grid_pending_no_order_id gridEx_ok GridReach.init
  exact ⟨h.2.1, h.2.2 (fun _ => true)⟩

/-- C8: a grid level that has left PENDING is never mutated again by any
sequence of grid steps (in particular an EXECUTED level never returns to
PENDING), and any single step either leaves a level unchanged or moves it
out of PENDING — so each level leaves PENDING at most once, for one of
EXECUTED, CANCELLED or ERROR. -/
theorem grid_level_transition_once (g : GridState) (es : List GridEvent)
    (i : ℕ) (l : GridLevel) (hl : g.grid_levels[i]? = some l)
    (hnp : l.status ≠ .pending) :
    (gridSteps g es).grid_levels[i]? = some l ∧
    ∀ (g1 : GridState) (e : GridEvent) (j : ℕ) (l1 l2 : GridLevel),
      g1.grid_levels[j]? = some l1 →
      (gridStep g1 e).grid_levels[j]? = some l2 →
      (l2 = l1 ∨ (l1.status = .pending ∧ l2.status ≠ .pending)) := by
  constructor
  · have key : ∀ (es1 : List GridEvent) (g1 : GridState),
        g1.grid_levels[i]? = some l →
        (gridSteps g1 es1).grid_levels[i]? = some l := by
      intro es1
      induction es1 with
      | nil => intro g1 hg1; simpa [gridSteps] using hg1
      | cons e es1 ih =>
          intro g1 hg1
          have hstep : (gridStep g1 e).grid_levels[i]? = some l := by
            rcases gridStep_level g1 e i with ⟨heq, -⟩ | ⟨a, a2, ha, ha2, -, hc⟩
            · rw [heq]; exact hg1
            · rw [hg1] at ha
              injection ha with ha
              subst ha
              rcases hc with rfl | ⟨hp, -⟩
              · exact ha2
              · exact absurd hp hnp
          rw [show gridSteps g1 (e :: es1) = gridSteps (gridStep g1 e) es1
            from rfl]
          exact ih (gridStep g1 e) hstep
    exact key es g hl
  · intro g1 e j l1 l2 h1 h2
    rcases gridStep_level g1 e j with ⟨heq, -⟩ | ⟨a, a2, ha, ha2, -, hc⟩
    · rw [heq, h1] at h2
      injection h2 with h2
      exact Or.inl h2.symm
    · rw [h1] at ha
      injection ha with ha
      subst ha
      rw [h2] at ha2
      injection ha2 with ha2
      subst ha2
      exact hc

/-- C8 witness: an EXECUTED level survives a further polling pass and a
stop unchanged. -/
theorem grid_level_transition_once_witness :
    (gridSteps { gridEx with grid_levels := [gridLvlDone] }
        [.poll 45000 (fun _ => true) (fun _ => 9) 5 "",
         .stop 6 (fun _ => true)]).grid_levels[0]? = some gridLvlDone := by
  exact (grid_level_transition_once
    { gridEx with grid_levels := [gridLvlDone] }
    [.poll 45000 (fun _ => true) (fun _ => 9) 5 "", .stop 6 (fun _ => true)]
    0 gridLvlDone (by rfl) (by simp [gridLvlDone])).1

/-- C6: the grid created with levelCount 5 over 45000–55000 has exactly
the level prices 45000, 47500, 50000, 52500, 55000, all PENDING; in
general levels are created once at creation time in ascending
(non-decreasing) price order, each PENDING, and every later step preserves
each level's index, price and quantity — only status / order id /
execution time can change. -/
theorem grid_level_construction :
    (create_grid_strategy "BTCUSDT" "BUY" 55000 45000 5 1 0 = .ok gridEx ∧
     gridEx.grid_levels.map (fun lv => lv.price) =
       [45000, 47500, 50000, 52500, 55000] ∧
     ∀ lv ∈ gridEx.grid_levels, lv.status = .pending) ∧
    (∀ (sym gt : String) (u l : ℚ) (cnt : ℤ) (qty : ℚ) (t : ℕ)
       (g0 : GridState),
      create_grid_strategy sym gt u l cnt qty t = .ok g0 →
      ((∀ i j (hi : i < g0.grid_levels.length)
          (hj : j < g0.grid_levels.length), i ≤ j →
          (g0.grid_levels[i]).price ≤ (g0.grid_levels[j]).price) ∧
        ∀ lv ∈ g0.grid_levels, lv.status = .pending)) ∧
    (∀ (sym gt : String) (u l : ℚ) (cnt : ℤ) (qty : ℚ) (t : ℕ)
       (g0 g : GridState),
      create_grid_strategy sym gt u l cnt qty t = .ok g0 → GridReach g0 g →
      g.grid_levels.map levelKey = g0.grid_levels.map levelKey) := by
  refine ⟨⟨gridEx_ok, by rfl, ?_⟩, ?_, ?_⟩
  · intro lv hlv
    simp only [gridEx, List.mem_cons, List.not_mem_nil, or_false] at hlv
    rcases hlv with rfl | rfl | rfl | rfl | rfl <;> rfl
  · intro sym gt u l cnt qty t g0 h0
    obtain ⟨-, hlu, hcnt, hcnt1, -, hg0⟩ := create_grid_ok_inv h0
    have hstep : (0 : ℚ) < (u - l) / ((cnt - 1 : ℤ) : ℚ) := by
      apply div_pos (sub_pos.mpr hlu)
      have : (0 : ℤ) < cnt - 1 := by omega
      exact_mod_cast this
    subst hg0
    constructor
    · intro i j hi hj hij
      simp only [List.length_map, List.length_range] at hi hj
      simp only [List.getElem_map, List.getElem_range]
      apply round2_mono
      have hc : (i : ℚ) ≤ (j : ℚ) := by exact_mod_cast hij
      have := mul_le_mul_of_nonneg_right hc (le_of_lt hstep)
      linarith
    · intro lv hlv
      simp only [List.mem_map, List.mem_range] at hlv
      obtain ⟨i, -, rfl⟩ := hlv
      rfl
  · intro sym gt u l cnt qty t g0 g h0 hr
    induction hr with
    | init => rfl
    | step e _ ih => rw [gridStep_key _ e]; exact ih

/-- C6 witness: the immutable projection of the example grid's levels is
unchanged by a stop step. -/
theorem grid_level_construction_witness :
    (gridStep gridEx (.stop 9 (fun _ => true))).grid_levels.map levelKey =
      gridEx.grid_levels.map levelKey := by
  exact grid_level_construction.2.2 "BTCUSDT" "BUY" 55000 45000 5 1 0
    gridEx _ gridEx_ok (GridReach.step _ GridReach.init)

/-- C1 counterexample: stopping a strategy that is already COMPLETED is
not a no-op — `stop_twap_strategy` unconditionally overwrites the status
with STOPPED (and restamps the end time), so the stored record changes. -/
theorem stop_on_completed_changes_record_cex :
    twapDone.status = .completed ∧
    stop_twap_strategy [("T", twapDone)] "T" 5 =
      .ok ([("T", stop_twap_record twapDone 5)],
           { strategy_id := "T", status := .stopped, total_executed := 1,
             remaining_quantity := 0, average_price := 50000 }) ∧
    (stop_twap_record twapDone 5).status ≠ twapDone.status := by
  refine ⟨rfl, ?_, ?_⟩
  · simp [stop_twap_strategy, lookupReg, setReg, twapDone, twapRun2, twapEx,
      stop_twap_record]
  · intro h
    simp [stop_twap_record, twapDone, twapRun2, twapEx] at h

/-- C1 amended: for a strategy id present in the registry, stop
unconditionally sets the record's status to STOPPED and stamps the end
time — also when the strategy is already terminal (COMPLETED, STOPPED or
ERROR), so stop is not a no-op on terminal records.  Stopping twice in
succession returns the same snapshot both times for a TWAP strategy (its
snapshot carries no timestamp); for a grid strategy the two snapshots
agree on every field except `stopped_time`, which carries each call's own
timestamp. -/
theorem stop_strategy_amended :
    (∀ (m : List (String × TwapState)) (sid : String) (t : ℕ) (s : TwapState),
      lookupReg m sid = some s →
      stop_twap_strategy m sid t =
        .ok (setReg m sid (stop_twap_record s t),
             { strategy_id := sid, status := .stopped,
               total_executed := s.total_executed,
               remaining_quantity := s.remaining_quantity,
               average_price := s.average_price })) ∧
    (∀ (m : List (String × TwapState)) (sid : String) (t1 t2 : ℕ)
       (m1 m2 : List (String × TwapState)) (r1 r2 : TwapStopResult),
      stop_twap_strategy m sid t1 = .ok (m1, r1) →
      stop_twap_strategy m1 sid t2 = .ok (m2, r2) →
      r1 = r2 ∧ r1.status = .stopped) ∧
    (∀ (m : List (String × GridState)) (gid : String) (t1 t2 : ℕ)
       (cok1 cok2 : ℕ → Bool) (m1 m2 : List (String × GridState))
       (r1 r2 : GridStopResult),
      stop_grid_strategy m gid t1 cok1 = .ok (m1, r1) →
      stop_grid_strategy m1 gid t2 cok2 = .ok (m2, r2) →
      r1.grid_id = r2.grid_id ∧ r1.status = r2.status ∧
      r1.total_orders = r2.total_orders ∧
      r1.executed_orders = r2.executed_orders ∧
      r1.status = .stopped ∧ r1.stopped_time = t1 ∧ r2.stopped_time = t2) := by
  refine ⟨?_, ?_, ?_⟩
  · intro m sid t s h
    simp [stop_twap_strategy, h]
    exact ⟨rfl, rfl, rfl⟩
  · intro m sid t1 t2 m1 m2 r1 r2 h1 h2
    cases hls : lookupReg m sid with
    | none => simp [stop_twap_strategy, hls] at h1
    | some s =>
        simp only [stop_twap_strategy, hls, Except.ok.injEq, Prod.mk.injEq] at h1
        obtain ⟨hm1, hr1⟩ := h1
        have hls1 : lookupReg m1 sid = some (stop_twap_record s t1) := by
          rw [← hm1]
          exact lookupReg_setReg hls _
        simp only [stop_twap_strategy, hls1, Except.ok.injEq, Prod.mk.injEq] at h2
        obtain ⟨-, hr2⟩ := h2
        subst hr1
        subst hr2
        exact ⟨rfl, rfl⟩
  · intro m gid t1 t2 cok1 cok2 m1 m2 r1 r2 h1 h2
    cases hls : lookupReg m gid with
    | none => simp [stop_grid_strategy, hls] at h1
    | some g =>
        simp only [stop_grid_strategy, hls, Except.ok.injEq, Prod.mk.injEq] at h1
        obtain ⟨hm1, hr1⟩ := h1
        have hls1 : lookupReg m1 gid = some (stop_grid_record g t1 cok1) := by
          rw [← hm1]
          exact lookupReg_setReg hls _
        simp only [stop_grid_strategy, hls1, Except.ok.injEq, Prod.mk.injEq] at h2
        obtain ⟨-, hr2⟩ := h2
        subst hr1
        subst hr2
        exact ⟨rfl, rfl, rfl, rfl, rfl, rfl, rfl⟩

/-- C1 witness: the amended theorem instantiated at a one-strategy
registry holding the example TWAP record and at a one-grid registry
holding the example grid. -/
theorem stop_strategy_amended_witness :
    stop_twap_strategy [("T", twapEx)] "T" 4 =
      .ok ([("T", stop_twap_record twapEx 4)],
           { strategy_id := "T", status := .stopped, total_executed := 0,
             remaining_quantity := 1, average_price := 0 }) ∧
    (∀ (r1 r2 : GridStopResult) (m1 m2 : List (String × GridState)),
      stop_grid_strategy [("G", gridEx)] "G" 4 (fun _ => true) = .ok (m1, r1) →
      stop_grid_strategy m1 "G" 5 (fun _ => true) = .ok (m2, r2) →
      r1.status = r2.status) := by
  constructor
  · have h := stop_strategy_amended.1 [("T", twapEx)] "T" 4 twapEx
      (by simp [lookupReg])
    rw [h]
    simp [setReg, twapEx]
  · intro r1 r2 m1 m2 h1 h2
    exact (stop_strategy_amended.2.2 [("G", gridEx)] "G" 4 5 (fun _ => true)
      (fun _ => true) m1 m2 r1 r2 h1 h2).2.1

/-- C9 counterexample: the multi-field fill update of `_execute_slice` is
written as four separate statements on the shared record with no lock
anywhere in the module, so the record passes through intermediate states
a concurrent `get_strategy_status` reader observes.  The state after the
`remaining_quantity` decrement and before the `total_executed` increment
violates `remaining + executed = total`, and its reader snapshot differs
from both the pre-update and the post-update snapshots. -/
theorem unsynchronized_update_torn_read_cex :
    ((slice_update_states twapEx 1 50000 7 1).get ⟨2, by decide⟩).remaining_quantity +
        ((slice_update_states twapEx 1 50000 7 1).get ⟨2, by decide⟩).total_executed ≠
      ((slice_update_states twapEx 1 50000 7 1).get ⟨2, by decide⟩).total_quantity ∧
    get_strategy_status ((slice_update_states twapEx 1 50000 7 1).get ⟨2, by decide⟩) ≠
      get_strategy_status twapEx ∧
    get_strategy_status ((slice_update_states twapEx 1 50000 7 1).get ⟨2, by decide⟩) ≠
      get_strategy_status (execute_slice twapEx 1 50000 7 1 true "") := by
  refine ⟨?_, ?_, ?_⟩
  · norm_num [slice_update_states, twapEx, min_def]
  · norm_num [slice_update_states, get_strategy_status, twapEx, min_def,
      TwapStatusView.mk.injEq]
  · norm_num [slice_update_states, get_strategy_status, execute_slice,
      twapEx, min_def, sumQP, TwapStatusView.mk.injEq]

/-- C9 amended: driver mutation of a strategy record does not go through
any guarded registry operation — the drivers mutate the shared dict's
record field by field with no lock, so the fill update of
`_execute_slice` exposes intermediate states: the update is the
statement sequence `slice_update_states`, whose first element is the
pre-state, whose last element is the completed update, and which contains
a state violating `remaining + executed = total` whenever the slice
really executes (remaining quantity positive) from a reachable state. -/
theorem unsynchronized_update_amended {sym side : String} {tq : ℚ}
    {dm ns : ℤ} {t : ℕ} {s0 s : TwapState} {i : ℕ}
    (h0 : execute_twap_order sym side tq dm ns t = .ok s0)
    (hr : TwapReach s0 (s, i)) (hrem : 0 < s.remaining_quantity)
    (n : ℤ) (price : ℚ) (oid tf : ℕ) (msg : String) :
    (slice_update_states s n price oid tf).head? = some s ∧
    (slice_update_states s n price oid tf).getLast? =
      some (execute_slice s n price oid tf true msg) ∧
    ∃ mid ∈ slice_update_states s n price oid tf,
      mid.remaining_quantity + mid.total_executed ≠ mid.total_quantity := by
  have hI := twap_reach_inv h0 hr
  have hq : 0 < min s.slice_quantity s.remaining_quantity :=
    lt_min hI.sq_pos hrem
  refine ⟨rfl, ?_, ?_⟩
  · simp only [slice_update_states, execute_slice,
      if_neg (not_le.mpr hrem), if_pos rfl]
    rfl
  · refine ⟨{ s with
      executed_orders := s.executed_orders ++
        [{ slice_num := n, order_id := oid,
           quantity := min s.slice_quantity s.remaining_quantity,
           price := price, timestamp := tf }]
      remaining_quantity := s.remaining_quantity -
        min s.slice_quantity s.remaining_quantity }, ?_, ?_⟩
    · unfold slice_update_states
      exact List.mem_cons_of_mem _ (List.mem_cons_of_mem _
        (List.mem_cons_self _ _))
    · have hcons : s.remaining_quantity + s.total_executed =
          s.total_quantity := hI.conservation
      simp only []
      intro hbad
      linarith

/-- C9 witness: the amended theorem instantiated at the freshly created
example strategy. -/
theorem unsynchronized_update_amended_witness :
    (slice_update_states twapEx 1 50000 7 1).head? = some twapEx := by
  exact (unsynchronized_update_amended twapEx_ok TwapReach.init
    (by norm_num [twapEx]) 1 50000 7 1 "").1
